import Mathlib

/-!
Verification development for the ai-investment-service repository: the
company-scoped document index and cache manager (Index Manager, Serializer,
Ingestion/Query Coordinator) and the implemented document service
(`src/services/documentService.js`).

The Index Manager itself (`src/utils/indexManager.js`) is required by
`tests/utils/indexManager.test.js` and specified by
`.kiro/specs/document-indexing/design.md`, but its implementation file is
absent from the source tree; the definitions in the `AIIS` namespace below are
therefore modelled from the specification (sections 4.2-4.4) and checked
against the expectations recorded in the test file and the design document.
The `DocSvc` namespace embeds the document service code that is present in the
source tree.
-/

namespace AIIS

/-- JSON values: the durable representation used by the index artifacts. -/
inductive Json : Type where
  | null : Json
  | bool (b : Bool) : Json
  | num (q : Rat) : Json
  | str (s : String) : Json
  | arr (xs : List Json) : Json
  | obj (fields : List (String × Json)) : Json

/-- Content of one artifact file: either well-formed JSON text, or unparseable
text (the embedding of a file on which JSON.parse throws). -/
inductive Stored : Type where
  | json (j : Json) : Stored
  | garbage (raw : String) : Stored

/-- The files of one company directory under the storage root, following the
design document layout (metadata.json, documents.json, vectors, config.json);
`none` means the file is absent. -/
structure CompanyDir where
  metadata : Option Stored := none
  documents : Option Stored := none
  vectors : Option Stored := none
  config : Option Stored := none

/-- The storage root: sanitized company directory names associated to
directory contents. -/
abbrev Store := List (String × CompanyDir)

/-- Look up a company directory by its sanitized name. -/
def Store.find (st : Store) (key : String) : Option CompanyDir :=
  List.lookup key st

/-- Write a whole company directory, replacing any previous one. -/
def Store.insert (st : Store) (key : String) (d : CompanyDir) : Store :=
  (key, d) :: st.filter (fun p => p.fst != key)

/-- Remove a company directory recursively. -/
def Store.remove (st : Store) (key : String) : Store :=
  st.filter (fun p => p.fst != key)

/-- Modelled from the spec: company codes keep letters, digits, dash and
underscore, and every other character (such as a path separator) is replaced
by an underscore, so one logical identifier maps to one storage location. -/
def sanitizeCode (s : String) : String :=
  ⟨s.data.map (fun c => if c.isAlphanum || c == '-' || c == '_' then c else '_')⟩

/-- A JavaScript value passed as a company code: a string, a number or null. -/
inductive JsInput : Type where
  | str (s : String) : JsInput
  | num (n : Int) : JsInput
  | nullv : JsInput

/-- The Index Manager error taxonomy of the design document. -/
inductive IMError : Type where
  | validation (msg : String)
  | indexNotFound (code : String)
  | indexCorrupted (code : String) (artifact : String)
  | storage (msg : String)
deriving DecidableEq

/-- Modelled from the spec: the path of a company's index directory. A
non-string or empty company code fails with a ValidationError; other input is
sanitized rather than rejected. -/
def getCompanyDir (baseDir : String) : JsInput → Except IMError String
  | .str s =>
      if s = "" then .error (.validation "companyCode must be a non-empty string")
      else .ok (baseDir ++ "/" ++ sanitizeCode s)
  | .num _ => .error (.validation "companyCode must be a non-empty string")
  | .nullv => .error (.validation "companyCode must be a non-empty string")

/-- Modelled from the spec: true exactly when the metadata, documents and
vectors artifacts all exist. A presence check: file contents are never read,
so corrupted content cannot make it throw. -/
def hasCompanyIndex (st : Store) (code : String) : Bool :=
  match st.find (sanitizeCode code) with
  | none => false
  | some d => d.metadata.isSome && d.documents.isSome && d.vectors.isSome

/-- One in-memory vector of the vector store: an embedded chunk. -/
structure MemoryVector where
  content : String
  embedding : List Rat
  metadata : Json

/-- The duck-typed vector source: an object exposing its in-memory vectors. -/
structure VectorStore where
  memoryVectors : List MemoryVector

/-- The config part of the serialized vector payload. -/
structure VecConfig where
  dimensions : Nat
deriving DecidableEq

/-- The flattened, storage-friendly view of the embedded chunks. -/
structure SerializedVectors where
  documents : List String
  embeddings : List (List Rat)
  metadatas : List Json
  config : VecConfig

/-- Modelled from the spec: pure transform of an in-memory vector source into
the flattened storage view. A null/absent source yields all-empty sequences;
dimensions is the length of the first embedding, or 0 when there is none. -/
def serializeVectorStore : Option VectorStore → SerializedVectors
  | none => { documents := [], embeddings := [], metadatas := [], config := { dimensions := 0 } }
  | some vs =>
      let embs := vs.memoryVectors.map (fun v => v.embedding)
      { documents := vs.memoryVectors.map (fun v => v.content)
        embeddings := embs
        metadatas := vs.memoryVectors.map (fun v => v.metadata)
        config := { dimensions := match embs.head? with
                    | some e => e.length
                    | none => 0 } }

/-- The number of embedded chunks exposed by a vector source. -/
def chunkCount : Option VectorStore → Nat
  | none => 0
  | some vs => vs.memoryVectors.length

/-- The document payload artifact: an object with a documents sequence. -/
def documentsJson (docs : List Json) : Json :=
  .obj [("documents", .arr docs)]

/-- The vector payload artifact: embeddings, documents and metadatas
sequences plus the config object. -/
def vectorsJson (sv : SerializedVectors) : Json :=
  .obj [("embeddings", .arr (sv.embeddings.map (fun e => .arr (e.map Json.num)))),
        ("documents", .arr (sv.documents.map Json.str)),
        ("metadatas", .arr sv.metadatas),
        ("config", .obj [("dimensions", .num (sv.config.dimensions : Rat))])]

/-- Modelled from the spec: the metadata artifact built at save time, merging
caller-supplied fields, always overwriting companyCode, documentCount,
totalChunks and updatedAt, and setting createdAt only if absent. -/
def metadataJson (code : String) (docCount totalChunks : Nat)
    (extra : List (String × Json)) (now : String) : Json :=
  let createdAt : Json :=
    match List.lookup "createdAt" extra with
    | some j => j
    | none => .str now
  .obj ((extra.filter (fun kv =>
          kv.fst != "companyCode" && kv.fst != "documentCount" &&
          kv.fst != "totalChunks" && kv.fst != "updatedAt" && kv.fst != "createdAt")) ++
        [("companyCode", .str code),
         ("documentCount", .num (docCount : Rat)),
         ("totalChunks", .num (totalChunks : Rat)),
         ("createdAt", createdAt),
         ("updatedAt", .str now)])

/-- The result object of saveCompanyIndex, paired with the updated store. -/
structure SaveResult where
  success : Bool
  companyCode : String
  documentCount : Nat
  store : Store

/-- Modelled from the spec: serializes the metadata, document and vector
payloads (plus the processing-config file) and writes them, atomically from
the caller's point of view, replacing any previous content of the company
directory. -/
def saveCompanyIndex (st : Store) (code : String) (docs : List Json)
    (vectorSource : Option VectorStore) (extra : List (String × Json))
    (now : String) : SaveResult :=
  let sv := serializeVectorStore vectorSource
  let dir : CompanyDir :=
    { metadata := some (.json (metadataJson code docs.length sv.embeddings.length extra now))
      documents := some (.json (documentsJson docs))
      vectors := some (.json (vectorsJson sv))
      config := some (.json (.obj [("chunkSize", .num 1000), ("chunkOverlap", .num 200),
                                   ("embeddingModel", .str "gemini-embedding-001")])) }
  { success := true
    companyCode := code
    documentCount := docs.length
    store := st.insert (sanitizeCode code) dir }

/-- JSON.parse on an artifact file: garbage fails, JSON text succeeds. -/
def parseStored : Stored → Option Json
  | .json j => some j
  | .garbage _ => none

/-- Field access on a JSON object. -/
def Json.getField : Json → String → Option Json
  | .obj fields, key => List.lookup key fields
  | _, _ => none

/-- View a JSON value as a sequence. -/
def Json.asArr : Json → Option (List Json)
  | .arr xs => some xs
  | _ => none

/-- Modelled from the spec: the document payload validates when it contains a
documents sequence (even if empty). -/
def validDocumentsJson (j : Json) : Option (List Json) :=
  (j.getField "documents").bind Json.asArr

/-- Modelled from the spec: the vector payload validates when it contains
embeddings, documents and metadatas sequences (even if empty). -/
def validVectorsJson (j : Json) : Option (List Json × List Json × List Json) :=
  match (j.getField "embeddings").bind Json.asArr,
        (j.getField "documents").bind Json.asArr,
        (j.getField "metadatas").bind Json.asArr with
  | some e, some d, some m => some (e, d, m)
  | _, _, _ => none

/-- The reconstructed vector data of a loaded index. -/
structure VectorData where
  embeddings : List Json
  documents : List Json
  metadatas : List Json

/-- The result of loadCompanyIndex. -/
structure LoadedIndex where
  metadata : Json
  documents : List Json
  vectorData : VectorData
  loadedAt : String

/-- Modelled from the spec: fails with IndexNotFound if any of the three
required artifacts is absent; fails with IndexCorrupted, naming the artifact,
if all are present but one fails Serializer validation; otherwise returns the
reconstructed index. -/
def loadCompanyIndex (st : Store) (code : String) (now : String) :
    Except IMError LoadedIndex :=
  match st.find (sanitizeCode code) with
  | none => .error (.indexNotFound code)
  | some d =>
    match d.metadata, d.documents, d.vectors with
    | some m, some ds, some vs =>
      match parseStored m with
      | none => .error (.indexCorrupted code "metadata")
      | some mj =>
        match (parseStored ds).bind validDocumentsJson with
        | none => .error (.indexCorrupted code "documents")
        | some docs =>
          match (parseStored vs).bind validVectorsJson with
          | none => .error (.indexCorrupted code "vectors")
          | some evm =>
            .ok { metadata := mj
                  documents := docs
                  vectorData := { embeddings := evm.fst
                                  documents := evm.snd.fst
                                  metadatas := evm.snd.snd }
                  loadedAt := now }
    | _, _, _ => .error (.indexNotFound code)

/-- The result object of deleteCompanyIndex. -/
structure DeleteResult where
  success : Bool
  companyCode : String
deriving DecidableEq

/-- Modelled from the spec: removes all artifacts of the company recursively;
fails with IndexNotFound when the company directory does not exist. -/
def deleteCompanyIndex (st : Store) (code : String) :
    Except IMError (DeleteResult × Store) :=
  match st.find (sanitizeCode code) with
  | none => .error (.indexNotFound code)
  | some _ => .ok ({ success := true, companyCode := code }, st.remove (sanitizeCode code))

/-- The outcome of the external fetch/chunk/embed pipeline on one request. -/
inductive PipelineResult : Type where
  | ok (docs : List Json) (vectorSource : Option VectorStore)
  | failure (msg : String)

/-- The terminal state of one coordinator request. -/
inductive Outcome : Type where
  | ready
  | failed (msg : String)
deriving DecidableEq

/-- Modelled from the spec: the BUILD phase of the coordinator state machine.
A pipeline success saves the new index and serves; a pipeline failure is
terminal for the request and writes nothing. -/
def buildPhase (st : Store) (code : String) (p : PipelineResult) (now : String) :
    Outcome × Store :=
  match p with
  | .ok docs vsrc => (.ready, (saveCompanyIndex st code docs vsrc [] now).store)
  | .failure msg => (.failed msg, st)

/-- Modelled from the spec: one coordinator request for a company, following
the state machine of spec section 4.4 and the error-handling snippet of
design.md: an index hit loads and serves, IndexNotFound falls back to BUILD,
IndexCorrupted deletes the index and then builds, and any other load error
fails the request. The delete in the corrupted branch cannot fail, since a
corrupted load implies the directory exists. -/
def handleRequest (st : Store) (code : String) (p : PipelineResult) (now : String) :
    Outcome × Store :=
  if hasCompanyIndex st code then
    match loadCompanyIndex st code now with
    | .ok _ => (.ready, st)
    | .error (.indexNotFound _) => buildPhase st code p now
    | .error (.indexCorrupted _ _) =>
        match deleteCompanyIndex st code with
        | .ok dr => buildPhase dr.snd code p now
        | .error _ => buildPhase (st.remove (sanitizeCode code)) code p now
    | .error _ => (.failed "storage error", st)
  else buildPhase st code p now

/-- The artifacts the store holds for a company. -/
def artifactsOf (st : Store) (code : String) : Option CompanyDir :=
  st.find (sanitizeCode code)

/-- True when the store holds no artifact at all for the company. -/
def noArtifacts (st : Store) (code : String) : Bool :=
  match st.find (sanitizeCode code) with
  | none => true
  | some d => d.metadata.isNone && d.documents.isNone && d.vectors.isNone && d.config.isNone

/-- The complete-or-absent invariant a reader relies on: either all three
required artifacts are present, or none is. -/
def completeOrAbsent (st : Store) (code : String) : Bool :=
  hasCompanyIndex st code || noArtifacts st code

/-- All three present artifacts of the directory pass Serializer validation. -/
def artifactsValid (d : CompanyDir) : Bool :=
  (match d.metadata with
   | some m => (parseStored m).isSome
   | none => false) &&
  (match d.documents with
   | some x => ((parseStored x).bind validDocumentsJson).isSome
   | none => false) &&
  (match d.vectors with
   | some x => ((parseStored x).bind validVectorsJson).isSome
   | none => false)

/-- The stored index for the company exists and passes validation. -/
def storedIndexValid (st : Store) (code : String) : Bool :=
  match st.find (sanitizeCode code) with
  | none => false
  | some d => artifactsValid d

/-- Discriminator: the load result is an IndexNotFound failure. -/
def isNotFoundErr : Except IMError LoadedIndex → Bool
  | .error (.indexNotFound _) => true
  | _ => false

/-- Discriminator: the load result is an IndexCorrupted failure. -/
def isCorruptedErr : Except IMError LoadedIndex → Bool
  | .error (.indexCorrupted _ _) => true
  | _ => false

/-- Replace the content of one stored artifact by unparseable text. -/
def corruptStored : Stored → Stored
  | _ => .garbage "corrupted content"

/-- Corrupt every present artifact of a company directory, keeping presence. -/
def corruptDir (d : CompanyDir) : CompanyDir :=
  { metadata := d.metadata.map corruptStored
    documents := d.documents.map corruptStored
    vectors := d.vectors.map corruptStored
    config := d.config.map corruptStored }

/-- Corrupt the content of every artifact in the store, keeping presence. -/
def corruptContents (st : Store) : Store :=
  st.map (fun p => (p.fst, corruptDir p.snd))

end AIIS

namespace DocSvc

/-!
Shallow embedding of the implemented document service,
`src/services/documentService.js`: the ingestion entry point `processUrls`
(which downloads each URL, splits it into chunks, embeds every chunk and
upserts one point per chunk into the shared Qdrant collection) and the query
path `searchDocuments` (which builds a Qdrant filter from a whitelist of five
company fields). External calls (URL validity, HTTP fetch together with the
loader run on the downloaded file, the text splitter, and the per-chunk
embed-and-upsert step) are an oracle, the `Env` structure.
-/

/-- The company object sent with the ingest request; its fields are spread
into the companyMetaData payload of every upserted point. -/
structure Company where
  companyCode : Option String := none
  nseCode : Option String := none
  bseCode : Option String := none
  industryLink : Option String := none
  name : Option String := none
deriving DecidableEq

/-- One document returned by the PDF or text loader. -/
structure LDoc where
  pageContent : String
  metadata : List (String × String) := []
deriving DecidableEq

/-- One point of the shared Qdrant documents collection: vector, chunk
content, loader metadata, and the companyMetaData object (company plus the
source link). Each upsert uses a fresh UUID, so a point is always appended. -/
structure Point where
  vector : List Rat
  content : String
  docMetadata : List (String × String)
  company : Company
  link : String
deriving DecidableEq

/-- What the loader produced for a downloaded file: a thrown error (from
writeFile or the loader) or a list of documents. -/
inductive LoadOutcome : Type where
  | loadError
  | docs (ds : List LDoc)

/-- What axios.get produced for a URL: a thrown error, or a response with a
content type together with the loader outcome for the downloaded body. -/
inductive FetchOutcome : Type where
  | fetchError
  | ok (contentType : String) (loaded : LoadOutcome)

/-- The external world of one processUrls or searchDocuments run. An `embed`
result of `none` is a thrown error in embedQuery or client.upsert for that
chunk. -/
structure Env where
  validUrl : String → Bool
  fetch : String → FetchOutcome
  split : List LDoc → List LDoc
  embed : String → Option (List Rat)

/-- The character list starts with the pattern character list. -/
def charsStartWith : List Char → List Char → Bool
  | _, [] => true
  | [], _ :: _ => false
  | c :: cs, q :: qs => c == q && charsStartWith cs qs

/-- The character list contains the pattern character list as a contiguous
run. -/
def charsContain : List Char → List Char → Bool
  | [], pat => pat.isEmpty
  | c :: cs, pat => charsStartWith (c :: cs) pat || charsContain cs pat

/-- JavaScript String.prototype.includes. -/
def strContains (s pat : String) : Bool :=
  charsContain s.data pat.data

/-- The content-type dispatch of processUrls: the PDF branch. -/
def supportedPdf (ct : String) : Bool :=
  strContains ct "pdf"

/-- The content-type dispatch of processUrls: the text branch. -/
def supportedText (ct : String) : Bool :=
  strContains ct "text/plain" || strContains ct "text/html" ||
  strContains ct "application/json"

/-- A content type processUrls accepts; anything else logs and skips. -/
def supportedType (ct : String) : Bool :=
  supportedPdf ct || supportedText ct

/-- The per-chunk upsert loop of processUrls: chunks are embedded and
upserted in order, appending one point per chunk; a thrown error aborts the
loop (the surrounding catch skips the URL), keeping points already upserted. -/
def upsertChunks (env : Env) (company : Company) (url : String) :
    List LDoc → List Point → List Point × Bool
  | [], store => (store, true)
  | c :: rest, store =>
    match env.embed c.pageContent with
    | none => (store, false)
    | some v =>
        upsertChunks env company url rest
          (store ++ [{ vector := v, content := c.pageContent,
                       docMetadata := c.metadata, company := company, link := url }])

/-- The object processUrls resolves with. -/
structure ProcessResult where
  success : Bool
  processedCount : Nat
  processedUrls : List String
deriving DecidableEq

/-- One iteration of the URL loop of processUrls: returns the updated
collection and whether the URL was pushed onto processedUrls. Invalid URLs,
fetch errors, unsupported content types, loader errors, empty loader results
and chunk errors all skip the URL. -/
def processOneUrl (env : Env) (company : Company) (store : List Point)
    (url : String) : List Point × Bool :=
  if env.validUrl url then
    match env.fetch url with
    | .fetchError => (store, false)
    | .ok ct loaded =>
      if supportedType ct then
        match loaded with
        | .loadError => (store, false)
        | .docs ds =>
          if ds.length > 0 then
            upsertChunks env company url (env.split ds) store
          else (store, false)
      else (store, false)
  else (store, false)

/-- The URL loop of processUrls, threading the collection and accumulating
processedUrls in order. -/
def processUrlsGo (env : Env) (company : Company) :
    List String → List Point → List String → List Point × List String
  | [], store, acc => (store, acc)
  | u :: rest, store, acc =>
    processUrlsGo env company rest (processOneUrl env company store u).fst
      (if (processOneUrl env company store u).snd then acc ++ [u] else acc)

/-- The implemented ingestion entry point processUrls of
src/services/documentService.js: every URL is downloaded, split, embedded and
upserted on every call; per-URL failures are caught and only skip that URL;
the promise always resolves with success true (the embedding is a total
function, which is the shallow form of never rejecting). -/
def processUrls (env : Env) (urls : List String) (company : Company)
    (store : List Point) : List Point × ProcessResult :=
  ((processUrlsGo env company urls store []).fst,
   { success := true
     processedCount := (processUrlsGo env company urls store []).snd.length
     processedUrls := (processUrlsGo env company urls store []).snd })

/-- Characterization of the URLs that processUrls actually counts: valid,
fetched without error, supported content type, at least one loaded document,
and every chunk embedded and upserted without error. -/
def urlCounted (env : Env) (url : String) : Bool :=
  env.validUrl url &&
  match env.fetch url with
  | .fetchError => false
  | .ok ct loaded =>
    supportedType ct &&
    match loaded with
    | .loadError => false
    | .docs ds =>
        decide (ds.length > 0) &&
        (env.split ds).all (fun c => (env.embed c.pageContent).isSome)

/-- The count described by the claim: URLs that are valid, have a supported
content type, and are processed without a thrown error. A URL whose loader
returns an empty document list throws nothing, so the claim counts it. -/
def urlClaimCounted (env : Env) (url : String) : Bool :=
  env.validUrl url &&
  match env.fetch url with
  | .fetchError => false
  | .ok ct loaded =>
    supportedType ct &&
    match loaded with
    | .loadError => false
    | .docs ds =>
        decide (ds.length = 0) ||
        (env.split ds).all (fun c => (env.embed c.pageContent).isSome)

/-- Options passed to searchDocuments: the five whitelisted company fields
(`none` means the key is absent, `some ""` a present but falsy value) plus any
other keys of the options object. -/
structure FilterOptions where
  companyCode : Option String := none
  nseCode : Option String := none
  bseCode : Option String := none
  industryLink : Option String := none
  name : Option String := none
  otherKeys : List (String × String) := []

/-- JavaScript truthiness of a possibly absent string value. -/
def truthy : Option String → Bool
  | some s => s != ""
  | none => false

/-- Object.keys(filterOptions).length > 0 for the modelled options object. -/
def FilterOptions.hasAnyKey (fo : FilterOptions) : Bool :=
  fo.companyCode.isSome || fo.nseCode.isSome || fo.bseCode.isSome ||
  fo.industryLink.isSome || fo.name.isSome || !fo.otherKeys.isEmpty

/-- One Qdrant match condition. -/
structure Condition where
  key : String
  value : String
deriving DecidableEq

/-- The condition pushed for one whitelisted field when its value is truthy. -/
def condFor (field : String) : Option String → List Condition
  | some s =>
      if s != "" then [{ key := "metadata.companyMetaData." ++ field, value := s }]
      else []
  | none => []

/-- The conditions searchDocuments builds, iterating the whitelist in order. -/
def buildConditions (fo : FilterOptions) : List Condition :=
  condFor "companyCode" fo.companyCode ++ condFor "nseCode" fo.nseCode ++
  condFor "bseCode" fo.bseCode ++ condFor "industryLink" fo.industryLink ++
  condFor "name" fo.name

/-- The filter searchDocuments passes to client.search: null when the options
object has no keys, and null again when no whitelisted field is truthy. -/
def buildFilter (fo : FilterOptions) : Option (List Condition) :=
  if fo.hasAnyKey then
    let conds := buildConditions fo
    if conds.isEmpty then none else some conds
  else none

/-- Whether a stored point satisfies one match condition, for the payload
keys the service uses. -/
def pointMatches (p : Point) (c : Condition) : Bool :=
  (c.key == "metadata.companyMetaData.companyCode" && p.company.companyCode == some c.value) ||
  (c.key == "metadata.companyMetaData.nseCode" && p.company.nseCode == some c.value) ||
  (c.key == "metadata.companyMetaData.bseCode" && p.company.bseCode == some c.value) ||
  (c.key == "metadata.companyMetaData.industryLink" && p.company.industryLink == some c.value) ||
  (c.key == "metadata.companyMetaData.name" && p.company.name == some c.value)

/-- Whether a stored point passes the (possibly null) filter. -/
def passesFilter (p : Point) : Option (List Condition) → Bool
  | none => true
  | some conds => conds.all (pointMatches p)

/-- Insert a point into a list sorted by descending score. -/
def insertByScore (score : List Rat → Rat) (p : Point) :
    List Point → List Point
  | [] => [p]
  | x :: xs =>
      if score x.vector < score p.vector then p :: x :: xs
      else x :: insertByScore score p xs

/-- Sort points by descending similarity score, deterministically and stably
for equal scores. -/
def sortByScore (score : List Rat → Rat) (ps : List Point) : List Point :=
  ps.foldl (fun acc p => insertByScore score p acc) []

/-- One mapped search result of searchDocuments. -/
structure SearchResult where
  content : String
  sourceName : String
  sourceType : String
  sourceUrl : String
  company : Company
  docMetadata : List (String × String)
deriving DecidableEq

/-- The implemented searchDocuments of src/services/documentService.js: build
the whitelisted filter from the options, search the collection for the top k
points passing the filter (the similarity scoring of the query embedding
against a stored vector is the injected external capability `score`), and map
each payload to a result. -/
def searchDocuments (score : List Rat → Rat) (store : List Point) (k : Nat)
    (fo : FilterOptions) : List SearchResult :=
  ((sortByScore score (store.filter (fun p => passesFilter p (buildFilter fo)))).take k).map
    (fun p =>
      { content := p.content
        sourceName := if p.link = "" then "Document" else p.link
        sourceType := "url"
        sourceUrl := p.link
        company := p.company
        docMetadata := p.docMetadata })

/-- An environment for which every URL is valid and fetches a supported text
response whose loader yields no documents at all. -/
def env0 : Env :=
  { validUrl := fun _ => true
    fetch := fun _ => .ok "text/plain" (.docs [])
    split := id
    embed := fun _ => some [] }

/-- The company object used in the concrete runs below. -/
def comp0 : Company := { companyCode := some "AAPL" }

/-- An environment in which one PDF URL downloads, loads and embeds without
any error. -/
def env1 : Env :=
  { validUrl := fun _ => true
    fetch := fun _ => .ok "application/pdf" (.docs [{ pageContent := "quarterly report text" }])
    split := id
    embed := fun _ => some [1, 0] }

/-- First ingestion of the report URL for the company, on an empty collection:
it succeeds and upserts one point. -/
def firstRun : List Point × ProcessResult :=
  processUrls env1 ["https://example.com/report.pdf"] comp0 []

/-- Second, identical ingestion request for the same company, issued after the
first one completed successfully. -/
def secondRun : List Point × ProcessResult :=
  processUrls env1 ["https://example.com/report.pdf"] comp0 firstRun.fst

/-- An environment serving two different source documents at two URLs. -/
def env6 : Env :=
  { validUrl := fun _ => true
    fetch := fun u =>
      if u = "https://example.com/v1.pdf" then .ok "application/pdf" (.docs [{ pageContent := "first version" }])
      else .ok "application/pdf" (.docs [{ pageContent := "second version" }])
    split := id
    embed := fun _ => some [1] }

/-- The company whose index is saved twice in the C6 scenario. -/
def comp6 : Company := { companyCode := some "TCS" }

/-- First save for the company: ingest the first document. -/
def ingestOnce : List Point × ProcessResult :=
  processUrls env6 ["https://example.com/v1.pdf"] comp6 []

/-- Second save for the same company: ingest the second document, after the
first save completed successfully. -/
def ingestTwice : List Point × ProcessResult :=
  processUrls env6 ["https://example.com/v2.pdf"] comp6 ingestOnce.fst

/-- Filter options that agree with `foB` on the five whitelisted fields but
carry an extra non-whitelisted key. -/
def foA : FilterOptions := { companyCode := some "ACME", otherKeys := [("role", "admin")] }

/-- Filter options with only the whitelisted companyCode field. -/
def foB : FilterOptions := { companyCode := some "ACME" }

/-- A two-point collection holding chunks of two different companies. -/
def witnessStore : List Point :=
  [{ vector := [1], content := "alpha", docMetadata := [],
     company := { companyCode := some "ACME" }, link := "https://e.com/a" },
   { vector := [0], content := "beta", docMetadata := [],
     company := { companyCode := some "OTHER" }, link := "https://e.com/b" }]

end DocSvc

namespace AIIS

/-- A store whose three required artifacts all exist but whose metadata file
holds unparseable text (the corruption scenario of the test file). -/
def corruptedStore : Store :=
  [("CORRUPTED", { metadata := some (.garbage "invalid json")
                   documents := some (.json (.obj [("documents", .arr [])]))
                   vectors := some (.json (.obj [])) })]

/-- A one-chunk vector source used in the concrete round-trip below. -/
def wVec : VectorStore :=
  { memoryVectors := [{ content := "chunk1", embedding := [1, 2], metadata := .null }] }

/-- The store produced by one successful save of one document and one embedded
chunk. -/
def wSaved : Store :=
  (saveCompanyIndex [] "AAPL" [Json.obj []] (some wVec) [] "t1").store

end AIIS

namespace AIIS

theorem Store.find_insert (st : Store) (k : String) (d : CompanyDir) :
    (st.insert k d).find k = some d := by
  simp [Store.insert, Store.find, List.lookup]

theorem Store.find_remove (st : Store) (k : String) :
    (st.remove k).find k = none := by
  induction st with
  | nil => rfl
  | cons p rest ih =>
      show Store.find (List.filter (fun q => q.fst != k) (p :: rest)) k = none
      rw [List.filter_cons]
      by_cases h : p.fst = k
      · have hb : (p.fst != k) = false := by simp [h]
        rw [hb]
        exact ih
      · have hb : (p.fst != k) = true := by simp [h]
        rw [hb]
        have hk : (k == p.fst) = false := by simp [Ne.symm h]
        show List.lookup k (p :: List.filter (fun q => q.fst != k) rest) = none
        rw [List.lookup]
        simp only [hk]
        exact ih

theorem Store.find_corrupt (st : Store) (k : String) :
    (corruptContents st).find k = (st.find k).map corruptDir := by
  induction st with
  | nil => rfl
  | cons p rest ih =>
      show List.lookup k ((p.fst, corruptDir p.snd) :: corruptContents rest) =
        Option.map corruptDir (List.lookup k (p :: rest))
      by_cases h : k = p.fst
      · simp [List.lookup, h]
      · have hk : (k == p.fst) = false := by simp [h]
        rw [List.lookup, List.lookup]
        simp only [hk]
        exact ih

/-- C7: companyCode validation shared by the Index Manager operations: a
non-string or empty input fails with a ValidationError, while disallowed path
characters such as a slash are substituted with an underscore rather than
rejected, so TEST/COMPANY and TEST_COMPANY resolve to the same storage
location, and the empty string, null and a number all fail. -/
theorem getCompanyDir_validation (baseDir : String) (n : Int) :
    getCompanyDir baseDir (.str "TEST/COMPANY") = .ok (baseDir ++ "/" ++ "TEST_COMPANY")
  ∧ getCompanyDir baseDir (.str "TEST/COMPANY") = getCompanyDir baseDir (.str "TEST_COMPANY")
  ∧ (∃ m, getCompanyDir baseDir (.str "") = .error (.validation m))
  ∧ (∃ m, getCompanyDir baseDir .nullv = .error (.validation m))
  ∧ (∃ m, getCompanyDir baseDir (.num n) = .error (.validation m)) := by
  have hs : sanitizeCode "TEST/COMPANY" = "TEST_COMPANY" := by decide
  have hs2 : sanitizeCode "TEST_COMPANY" = "TEST_COMPANY" := by decide
  refine ⟨?_, ?_, ⟨_, rfl⟩, ⟨_, rfl⟩, ⟨_, rfl⟩⟩
  · simp [getCompanyDir, hs]
  · simp [getCompanyDir, hs, hs2]

/-- C8: serializeVectorStore is a pure transform (embedded as a total Lean
function, with no effect on any store): a null/absent vector source yields
all-empty documents, embeddings and metadatas sequences; otherwise each of the
three sequences has one entry per in-memory vector, and config.dimensions is
the length of the first embedding, or 0 when there are no embeddings. -/
theorem serializeVectorStore_spec (vs : VectorStore) :
    (serializeVectorStore none).documents = []
  ∧ (serializeVectorStore none).embeddings = []
  ∧ (serializeVectorStore none).metadatas = []
  ∧ (serializeVectorStore none).config.dimensions = 0
  ∧ (serializeVectorStore (some vs)).documents.length = vs.memoryVectors.length
  ∧ (serializeVectorStore (some vs)).embeddings.length = vs.memoryVectors.length
  ∧ (serializeVectorStore (some vs)).metadatas.length = vs.memoryVectors.length
  ∧ (serializeVectorStore (some vs)).config.dimensions =
      (match vs.memoryVectors.head? with
       | some v => v.embedding.length
       | none => 0) := by
  refine ⟨rfl, rfl, rfl, rfl, ?_, ?_, ?_, ?_⟩
  · simp [serializeVectorStore]
  · simp [serializeVectorStore]
  · simp [serializeVectorStore]
  · cases h : vs.memoryVectors with
    | nil => simp [serializeVectorStore, h]
    | cons v rest => simp [serializeVectorStore, h]

/-- A freshly serialized document payload passes Serializer validation and
reconstructs the saved documents sequence. -/
theorem validDocumentsJson_documentsJson (docs : List Json) :
    validDocumentsJson (documentsJson docs) = some docs := by
  simp [validDocumentsJson, documentsJson, Json.getField, Json.asArr, List.lookup]

theorem validVectorsJson_vectorsJson (sv : SerializedVectors) :
    validVectorsJson (vectorsJson sv) =
      some (sv.embeddings.map (fun e => .arr (e.map Json.num)),
            sv.documents.map Json.str, sv.metadatas) := by
  simp [validVectorsJson, vectorsJson, Json.getField, Json.asArr, List.lookup]

/-- C4: hasCompanyIndex is a pure presence check on the three required
artifacts: it is false on a store with no saves, true immediately after a
successful saveCompanyIndex, false again after a successful
deleteCompanyIndex, false when only the metadata artifact is present, and
unaffected by corrupting the content of every stored artifact (it never reads
content, so corrupted content cannot make it throw). -/
theorem hasCompanyIndex_presence_lifecycle (code : String) (h : code ≠ "") :
    hasCompanyIndex ([] : Store) code = false
  ∧ (∀ st docs vsrc extra now,
      hasCompanyIndex (saveCompanyIndex st code docs vsrc extra now).store code = true)
  ∧ (∀ st r st2, deleteCompanyIndex st code = .ok (r, st2) →
      hasCompanyIndex st2 code = false)
  ∧ (∀ m, hasCompanyIndex
      [(sanitizeCode code, { metadata := some m : CompanyDir })] code = false)
  ∧ (∀ st, hasCompanyIndex (corruptContents st) code = hasCompanyIndex st code) := by
  refine ⟨rfl, ?_, ?_, ?_, ?_⟩
  · intro st docs vsrc extra now
    simp [saveCompanyIndex, hasCompanyIndex, Store.find_insert]
  · intro st r st2 hdel
    unfold deleteCompanyIndex at hdel
    cases hfind : st.find (sanitizeCode code) with
    | none => rw [hfind] at hdel; exact absurd hdel (by simp)
    | some d =>
        rw [hfind] at hdel
        have hst2 : st2 = st.remove (sanitizeCode code) := by
          injection hdel with h1
          exact (congrArg Prod.snd h1).symm
        rw [hst2]
        simp [hasCompanyIndex, Store.find_remove]
  · intro m
    simp [hasCompanyIndex, Store.find, List.lookup]
  · intro st
    rw [hasCompanyIndex, hasCompanyIndex, Store.find_corrupt]
    cases st.find (sanitizeCode code) with
    | none => rfl
    | some d => simp [corruptDir]

/-- C4 witness: the lifecycle theorem instantiated at the company code AAPL. -/
theorem hasCompanyIndex_presence_lifecycle_witness :
    ("AAPL" : String) ≠ "" ∧ hasCompanyIndex ([] : Store) "AAPL" = false :=
  ⟨by decide, (hasCompanyIndex_presence_lifecycle "AAPL" (by decide)).1⟩

/-- After a save, the company directory holds exactly the four freshly
serialized artifacts. -/
theorem save_store_find (st : Store) (code : String) (docs : List Json)
    (vsrc : Option VectorStore) (extra : List (String × Json)) (now : String) :
    (saveCompanyIndex st code docs vsrc extra now).store.find (sanitizeCode code) =
      some { metadata := some (.json (metadataJson code docs.length
                              (serializeVectorStore vsrc).embeddings.length extra now))
             documents := some (.json (documentsJson docs))
             vectors := some (.json (vectorsJson (serializeVectorStore vsrc)))
             config := some (.json (.obj [("chunkSize", .num 1000), ("chunkOverlap", .num 200),
                                          ("embeddingModel", .str "gemini-embedding-001")])) } :=
  Store.find_insert st (sanitizeCode code) _

/-- C5: round-trip: loading immediately after a successful save returns a
documents list of the same length as the saved one, and a vectorData.documents
list whose length is the number of embedded chunks of the vector source. -/
theorem loadCompanyIndex_after_save (st : Store) (code : String) (docs : List Json)
    (vsrc : Option VectorStore) (extra : List (String × Json)) (now now2 : String)
    (h : code ≠ "") :
    ∃ li, loadCompanyIndex (saveCompanyIndex st code docs vsrc extra now).store code now2 = .ok li
      ∧ li.documents.length = docs.length
      ∧ li.vectorData.documents.length = chunkCount vsrc := by
  refine ⟨{ metadata := metadataJson code docs.length
                          (serializeVectorStore vsrc).embeddings.length extra now
            documents := docs
            vectorData := { embeddings := (serializeVectorStore vsrc).embeddings.map
                                            (fun e => .arr (e.map Json.num))
                            documents := (serializeVectorStore vsrc).documents.map Json.str
                            metadatas := (serializeVectorStore vsrc).metadatas }
            loadedAt := now2 }, ?_, rfl, ?_⟩
  · rw [loadCompanyIndex, save_store_find]
    simp only [parseStored, Option.some_bind, validDocumentsJson_documentsJson,
      validVectorsJson_vectorsJson]
  · cases vsrc with
    | none => rfl
    | some v => simp [serializeVectorStore, chunkCount]

/-- C3: for a valid companyCode, loadCompanyIndex fails with IndexNotFound
exactly when at least one of the three required artifacts is absent, and fails
with IndexCorrupted exactly when all artifacts are present but one fails
validation (unparseable JSON, or well-formed data missing the required shape);
in the corrupted case it never reports IndexNotFound and never silently
returns a loaded result. -/
theorem loadCompanyIndex_taxonomy (st : Store) (code now : String) (h : code ≠ "") :
    (isNotFoundErr (loadCompanyIndex st code now) = true ↔ hasCompanyIndex st code = false)
  ∧ (isCorruptedErr (loadCompanyIndex st code now) = true ↔
       (hasCompanyIndex st code = true ∧ storedIndexValid st code = false))
  ∧ (hasCompanyIndex st code = true → storedIndexValid st code = false →
       isNotFoundErr (loadCompanyIndex st code now) = false
       ∧ ∀ li, loadCompanyIndex st code now ≠ .ok li) := by
  simp only [loadCompanyIndex, hasCompanyIndex, storedIndexValid, artifactsValid]
  cases hfind : st.find (sanitizeCode code) with
  | none => simp [hfind, isNotFoundErr, isCorruptedErr]
  | some d =>
      cases hm : d.metadata with
      | none => simp [hfind, hm, isNotFoundErr, isCorruptedErr]
      | some m =>
          cases hd : d.documents with
          | none => simp [hfind, hm, hd, isNotFoundErr, isCorruptedErr]
          | some ds =>
              cases hv : d.vectors with
              | none => simp [hfind, hm, hd, hv, isNotFoundErr, isCorruptedErr]
              | some vs =>
                  cases hpm : parseStored m with
                  | none => simp [hfind, hm, hd, hv, hpm, isNotFoundErr, isCorruptedErr]
                  | some mj =>
                      cases hpd : (parseStored ds).bind validDocumentsJson with
                      | none => simp [hfind, hm, hd, hv, hpm, hpd, isNotFoundErr, isCorruptedErr]
                      | some docs =>
                          cases hpv : (parseStored vs).bind validVectorsJson with
                          | none =>
                              simp [hfind, hm, hd, hv, hpm, hpd, hpv, isNotFoundErr, isCorruptedErr]
                          | some evm =>
                              simp [hfind, hm, hd, hv, hpm, hpd, hpv, isNotFoundErr, isCorruptedErr]

/-- C3 witness: the taxonomy theorem instantiated at a store whose metadata
artifact holds unparseable text while all three artifacts exist. -/
theorem loadCompanyIndex_taxonomy_witness :
    ("CORRUPTED" : String) ≠ ""
  ∧ (isCorruptedErr (loadCompanyIndex corruptedStore "CORRUPTED" "t") = true ↔
       (hasCompanyIndex corruptedStore "CORRUPTED" = true
        ∧ storedIndexValid corruptedStore "CORRUPTED" = false)) :=
  ⟨by decide, (loadCompanyIndex_taxonomy corruptedStore "CORRUPTED" "t" (by decide)).2.1⟩

/-- When the index check reports false, the subsequent load reports
IndexNotFound. -/
theorem has_false_load_notFound (st : Store) (code now : String)
    (hfalse : hasCompanyIndex st code = false) :
    loadCompanyIndex st code now = .error (.indexNotFound code) := by
  simp only [hasCompanyIndex] at hfalse
  simp only [loadCompanyIndex]
  cases hfind : st.find (sanitizeCode code) with
  | none => rfl
  | some d =>
      rw [hfind] at hfalse
      cases hm : d.metadata <;> cases hd : d.documents <;> cases hv : d.vectors <;> simp_all

/-- A corrupted load result implies the presence check had succeeded. -/
theorem isCorrupted_imp_has (st : Store) (code now : String)
    (hc : isCorruptedErr (loadCompanyIndex st code now) = true) :
    hasCompanyIndex st code = true := by
  cases hb : hasCompanyIndex st code
  · rw [has_false_load_notFound st code now hb] at hc
    simp [isCorruptedErr] at hc
  · rfl

/-- When the presence check succeeds, deleting the index succeeds and removes
the company directory. -/
theorem has_delete_ok (st : Store) (code : String)
    (hhas : hasCompanyIndex st code = true) :
    deleteCompanyIndex st code =
      .ok ({ success := true, companyCode := code }, st.remove (sanitizeCode code)) := by
  simp only [hasCompanyIndex] at hhas
  simp only [deleteCompanyIndex]
  cases hfind : st.find (sanitizeCode code) with
  | none => rw [hfind] at hhas; simp at hhas
  | some d => rfl

/-- C2: in the coordinator protocol, an IndexCorrupted load result leads to
deleteCompanyIndex followed by a full rebuild and is never fatal to the caller
(a failed outcome can only carry the pipeline's own failure message); a failed
rebuild writes no index artifacts at all: after a pipeline failure the
previously existing artifacts — a valid index, or the absence of any index —
are exactly preserved (removed only when they were the corrupted index being
healed), and a request never turns a complete-or-absent store into one with a
partially present index. -/
theorem coordinator_selfheal_no_partial_write (st : Store) (code now : String)
    (p : PipelineResult) (h : code ≠ "") :
    (isCorruptedErr (loadCompanyIndex st code now) = true →
        handleRequest st code p now = buildPhase (st.remove (sanitizeCode code)) code p now
      ∧ (∀ msg, (handleRequest st code p now).fst = .failed msg → p = .failure msg))
  ∧ (∀ msg, p = .failure msg →
        artifactsOf (handleRequest st code p now).snd code =
          (if isCorruptedErr (loadCompanyIndex st code now) = true then none
           else artifactsOf st code))
  ∧ (completeOrAbsent st code = true →
        completeOrAbsent (handleRequest st code p now).snd code = true) := by
  cases hb : hasCompanyIndex st code
  case false =>
    have hL := has_false_load_notFound st code now hb
    have hreq : handleRequest st code p now = buildPhase st code p now := by
      simp [handleRequest, hb]
    refine ⟨?_, ?_, ?_⟩
    · intro hc
      rw [hL] at hc
      simp [isCorruptedErr] at hc
    · intro msg hp
      subst hp
      simp [hreq, buildPhase, hL, isCorruptedErr]
    · intro hco
      cases p with
      | ok docs vsrc =>
          simp [hreq, buildPhase, completeOrAbsent, hasCompanyIndex, saveCompanyIndex,
            Store.find_insert]
      | failure m => simpa [hreq, buildPhase] using hco
  case true =>
    cases hL : loadCompanyIndex st code now with
    | ok li =>
        have hreq : handleRequest st code p now = (.ready, st) := by
          simp [handleRequest, hb, hL]
        refine ⟨?_, ?_, ?_⟩
        · intro hc
          simp [isCorruptedErr] at hc
        · intro msg hp
          simp [hreq, hL, isCorruptedErr]
        · intro hco
          simpa [hreq] using hco
    | error e =>
        cases e with
        | indexNotFound c =>
            have hreq : handleRequest st code p now = buildPhase st code p now := by
              simp [handleRequest, hb, hL]
            refine ⟨?_, ?_, ?_⟩
            · intro hc
              simp [isCorruptedErr] at hc
            · intro msg hp
              subst hp
              simp [hreq, buildPhase, hL, isCorruptedErr]
            · intro hco
              cases p with
              | ok docs vsrc =>
                  simp [hreq, buildPhase, completeOrAbsent, hasCompanyIndex, saveCompanyIndex,
                    Store.find_insert]
              | failure m => simpa [hreq, buildPhase] using hco
        | indexCorrupted c a =>
            have hdel := has_delete_ok st code hb
            have hreq : handleRequest st code p now =
                buildPhase (st.remove (sanitizeCode code)) code p now := by
              simp [handleRequest, hb, hL, hdel]
            refine ⟨?_, ?_, ?_⟩
            · refine fun _ => ⟨hreq, ?_⟩
              intro msg hmsg
              rw [hreq] at hmsg
              cases p with
              | ok docs vsrc => simp [buildPhase] at hmsg
              | failure m =>
                  simp [buildPhase] at hmsg
                  rw [hmsg]
            · intro msg hp
              subst hp
              simp [hreq, buildPhase, hL, isCorruptedErr, artifactsOf, Store.find_remove]
            · intro hco
              cases p with
              | ok docs vsrc =>
                  simp [hreq, buildPhase, completeOrAbsent, hasCompanyIndex, saveCompanyIndex,
                    Store.find_insert]
              | failure m =>
                  simp [hreq, buildPhase, completeOrAbsent, noArtifacts, Store.find_remove]
        | validation m2 =>
            have hreq : handleRequest st code p now = (.failed "storage error", st) := by
              simp [handleRequest, hb, hL]
            refine ⟨?_, ?_, ?_⟩
            · intro hc
              simp [isCorruptedErr] at hc
            · intro msg hp
              simp [hreq, hL, isCorruptedErr]
            · intro hco
              simpa [hreq] using hco
        | storage m2 =>
            have hreq : handleRequest st code p now = (.failed "storage error", st) := by
              simp [handleRequest, hb, hL]
            refine ⟨?_, ?_, ?_⟩
            · intro hc
              simp [isCorruptedErr] at hc
            · intro msg hp
              simp [hreq, hL, isCorruptedErr]
            · intro hco
              simpa [hreq] using hco

/-- C2 witness: the coordinator theorem applied to the corrupted store with a
failing pipeline: the request self-heals by deleting and rebuilding, and the
failed rebuild leaves no artifacts for the company. -/
theorem coordinator_selfheal_no_partial_write_witness :
    ("CORRUPTED" : String) ≠ ""
  ∧ handleRequest corruptedStore "CORRUPTED" (.failure "boom") "t" =
      buildPhase (corruptedStore.remove (sanitizeCode "CORRUPTED")) "CORRUPTED" (.failure "boom") "t" :=
  ⟨by decide,
   ((coordinator_selfheal_no_partial_write corruptedStore "CORRUPTED" "t" (.failure "boom")
      (by decide)).1 (by rfl)).1⟩

/-- C5 witness: the round-trip theorem instantiated at a concrete one-document,
one-chunk save. -/
theorem loadCompanyIndex_after_save_witness :
    ("AAPL" : String) ≠ ""
  ∧ ∃ li, loadCompanyIndex wSaved "AAPL" "t2" = .ok li
      ∧ li.documents.length = [Json.obj []].length
      ∧ li.vectorData.documents.length = chunkCount (some wVec) :=
  ⟨by decide, loadCompanyIndex_after_save [] "AAPL" [Json.obj []] (some wVec) [] "t1" "t2" (by decide)⟩

end AIIS

namespace DocSvc

/-- The per-chunk upsert loop reports success exactly when every chunk embeds
and upserts without a thrown error. -/
theorem upsertChunks_snd (env : Env) (company : Company) (url : String)
    (chunks : List LDoc) (store : List Point) :
    (upsertChunks env company url chunks store).snd =
      chunks.all (fun c => (env.embed c.pageContent).isSome) := by
  induction chunks generalizing store with
  | nil => rfl
  | cons c rest ih =>
      simp only [upsertChunks, List.all_cons]
      cases he : env.embed c.pageContent with
      | none => simp [he]
      | some v => simp [he, ih]

/-- One URL iteration pushes the URL exactly when it is counted. -/
theorem processOneUrl_snd (env : Env) (company : Company) (store : List Point)
    (url : String) :
    (processOneUrl env company store url).snd = urlCounted env url := by
  cases hv : env.validUrl url with
  | false => simp [processOneUrl, urlCounted, hv]
  | true =>
      cases hf : env.fetch url with
      | fetchError => simp [processOneUrl, urlCounted, hv, hf]
      | ok ct loaded =>
          cases hs : supportedType ct with
          | false => simp [processOneUrl, urlCounted, hv, hf, hs]
          | true =>
              cases loaded with
              | loadError => simp [processOneUrl, urlCounted, hv, hf, hs]
              | docs ds =>
                  by_cases hlen : ds.length > 0
                  · simp [processOneUrl, urlCounted, hv, hf, hs, hlen, upsertChunks_snd]
                  · simp [processOneUrl, urlCounted, hv, hf, hs, hlen]

/-- The URL loop accumulates exactly the counted URLs, in order. -/
theorem processUrlsGo_snd (env : Env) (company : Company) (urls : List String)
    (store : List Point) (acc : List String) :
    (processUrlsGo env company urls store acc).snd =
      acc ++ urls.filter (urlCounted env) := by
  induction urls generalizing store acc with
  | nil => simp [processUrlsGo]
  | cons u rest ih =>
      simp only [processUrlsGo]
      rw [ih, List.filter_cons]
      cases hc : urlCounted env u with
      | false =>
          have hp : (processOneUrl env company store u).snd = false := by
            rw [processOneUrl_snd, hc]
          simp [hp, hc]
      | true =>
          have hp : (processOneUrl env company store u).snd = true := by
            rw [processOneUrl_snd, hc]
          simp [hp, hc]

/-- C9 (amended): for every environment, URL batch and company object,
processUrls resolves (it is a total function on the embedded state) with
success true; a failure on any single URL only skips that URL; and
processedUrls and processedCount are exactly the URLs that were valid, were
fetched with a supported content type, yielded at least one loaded document,
and had every chunk embedded and upserted without a thrown error — in
particular a batch in which every URL fails still yields success true with
processedCount 0 and an empty processedUrls list. -/
theorem processUrls_success_and_count (env : Env) (urls : List String)
    (company : Company) (store : List Point) :
    (processUrls env urls company store).snd.success = true
  ∧ (processUrls env urls company store).snd.processedUrls = urls.filter (urlCounted env)
  ∧ (processUrls env urls company store).snd.processedCount
      = (urls.filter (urlCounted env)).length := by
  refine ⟨rfl, ?_, ?_⟩ <;> simp [processUrls, processUrlsGo_snd]

/-- C9 counterexample: a URL that is valid, is fetched with the supported
content type text/plain, and is processed without any thrown error (the
loader simply yields zero documents) is not counted by processUrls: the count
the claim prescribes for this batch is 1, the actual processedCount is 0. -/
theorem processUrls_empty_docs_counterexample :
    (processUrls env0 ["http://a.example/x"] comp0 []).snd.processedCount = 0
  ∧ ((["http://a.example/x"] : List String).filter (urlClaimCounted env0)).length = 1 := by
  exact ⟨rfl, rfl⟩

/-- C1: contrary to the claim, the implemented ingestion entry point never
consults a persisted index: invoked a second time for the same company and
the same URL after the first ingestion completed successfully, processUrls
downloads, embeds and upserts the same source document again — the collection
grows from one point to two and the second run reports one processed URL. -/
theorem processUrls_reingests_after_success :
    firstRun.snd.processedCount = 1
  ∧ firstRun.fst.length = 1
  ∧ secondRun.snd.processedCount = 1
  ∧ secondRun.fst.length = 2 := by
  exact ⟨rfl, rfl, rfl, rfl⟩

/-- C6: contrary to the claim, a second successful save for the same company
does not replace the first: the ingestion path upserts points under fresh
identifiers into the shared collection, so after two successive ingestions
for one company the collection holds the documents of both saves, every point
carries that company, and a query filtered to the company observes the first
save's content alongside the second's. -/
theorem second_save_appends_instead_of_replacing :
    ingestTwice.fst.map (fun p => p.content) = ["first version", "second version"]
  ∧ ingestTwice.fst.all (fun p => p.company == comp6) = true
  ∧ (searchDocuments (fun _ => 0) ingestTwice.fst 10
        { companyCode := some "TCS" }).map (fun r => r.content)
      = ["first version", "second version"] := by
  exact ⟨rfl, rfl, rfl⟩

/-- Options without any key build no conditions. -/
theorem buildConditions_empty_of_no_key (fo : FilterOptions)
    (hk : fo.hasAnyKey = false) : buildConditions fo = [] := by
  cases hc : fo.companyCode <;> cases hn : fo.nseCode <;> cases hb : fo.bseCode <;>
    cases hi : fo.industryLink <;> cases hm : fo.name <;>
      simp_all [FilterOptions.hasAnyKey, buildConditions, condFor]

/-- The filter is determined by the conditions built from the whitelist. -/
theorem buildFilter_eq (fo : FilterOptions) :
    buildFilter fo =
      (if buildConditions fo = [] then none else some (buildConditions fo)) := by
  cases hk : fo.hasAnyKey
  · rw [buildConditions_empty_of_no_key fo hk]
    simp [buildFilter, hk]
  · simp only [buildFilter, hk, if_true]
    rcases hc : buildConditions fo with _ | ⟨c, cs⟩ <;> simp

/-- C10: noninterference of query filtering: for any two filterOptions that
agree on the five whitelisted fields (companyCode, nseCode, bseCode,
industryLink, name), searchDocuments constructs the same vector-store filter,
so given the same question embedding, limit and store contents it returns the
same results; the value under any other key never influences which documents
are searched or returned. -/
theorem searchDocuments_whitelist_noninterference (score : List Rat → Rat)
    (store : List Point) (k : Nat) (fo1 fo2 : FilterOptions)
    (h1 : fo1.companyCode = fo2.companyCode) (h2 : fo1.nseCode = fo2.nseCode)
    (h3 : fo1.bseCode = fo2.bseCode) (h4 : fo1.industryLink = fo2.industryLink)
    (h5 : fo1.name = fo2.name) :
    searchDocuments score store k fo1 = searchDocuments score store k fo2 := by
  have hc : buildConditions fo1 = buildConditions fo2 := by
    simp [buildConditions, h1, h2, h3, h4, h5]
  have hf : buildFilter fo1 = buildFilter fo2 := by
    rw [buildFilter_eq, buildFilter_eq, hc]
  simp [searchDocuments, hf]

/-- C10 witness: the noninterference theorem applied to two concrete options
objects differing only in a non-whitelisted key, over a two-company store. -/
theorem searchDocuments_whitelist_noninterference_witness :
    searchDocuments (fun _ => 0) witnessStore 3 foA =
      searchDocuments (fun _ => 0) witnessStore 3 foB :=
  searchDocuments_whitelist_noninterference (fun _ => 0) witnessStore 3 foA foB
    rfl rfl rfl rfl rfl

end DocSvc
